import Mathlib

/-!
A shallow embedding of the data-to-prompt pipeline of `app.py`:
`clean_dataframe`, `build_dataset_snapshot`, `local_basic_stats_text` and the
Ask-button handler.  A raw table is an ordered list of named columns whose
cells are dynamic values (integer, float, string, boolean, missing); floats
are modelled as rationals.  `clean_dataframe` mirrors the three steps of the
source: drop columns whose name matches the regex `^Unnamed`
(`df.columns.str.contains("^Unnamed")` anchored search), infer the best
dtype per column (`df.convert_dtypes()`), and force any column still of
dtype `object` to strings (`astype(str)`).
-/

namespace App

/-- A raw dynamic cell value of an uploaded table: the value kinds of the
spec data model (string, integer, float, boolean, missing).  `missing`
stands for the library missing markers (`None`, `NaN`, `NA`). -/
inductive RawCell where
  | int (n : Int)
  | float (q : Rat)
  | str (s : String)
  | bool (b : Bool)
  | missing
deriving DecidableEq

/-- A named column of raw cells. -/
structure Column where
  name : String
  cells : List RawCell
deriving DecidableEq

/-- A raw table: ordered list of named columns. -/
abbrev Table := List Column

/-- The pandas dtypes a column can carry in this pipeline after
`convert_dtypes`: nullable Int64, Float64, string, boolean, or a leftover
dynamic `object` column. -/
inductive Dtype where
  | int64
  | float64
  | stringDt
  | booleanDt
  | objectDt
deriving DecidableEq

/-- The three semantic kinds of the spec plus the boolean kind that pandas dtype
inference can also produce.  Both the pandas `string` dtype and an
`object` column coerced to strings are observed identically by every
downstream consumer in this program, so both map to `text`. -/
inductive Kind where
  | integer
  | float
  | text
  | boolean
deriving DecidableEq

def RawCell.isMissing : RawCell → Bool
  | .missing => true
  | _ => false

def RawCell.isInt : RawCell → Bool
  | .int _ => true
  | _ => false

def RawCell.isFloat : RawCell → Bool
  | .float _ => true
  | _ => false

def RawCell.isStr : RawCell → Bool
  | .str _ => true
  | _ => false

def RawCell.isBool : RawCell → Bool
  | .bool _ => true
  | _ => false

def RawCell.isNum (c : RawCell) : Bool :=
  c.isInt || c.isFloat

/-- An integer cell, or a float cell carrying an integral value (pandas
`convert_dtypes` converts an all-integral float column to `Int64`). -/
def RawCell.isIntLike : RawCell → Bool
  | .int _ => true
  | .float q => q.den == 1
  | _ => false

/-- The non-missing cells of a column, which drive dtype inference. -/
def nonMissing (cs : List RawCell) : List RawCell :=
  cs.filter (fun c => !c.isMissing)

/-- Dtype inference as performed by `df.convert_dtypes()` on a column of
dynamic values: missing values do not block inference; an all-integer
column (or an all-numeric column whose floats are all integral) becomes
`Int64`; an all-string column becomes `string`; an all-boolean column
becomes `boolean`; a numeric column with a non-integral float becomes
`Float64`; anything mixed (or with no non-missing cell at all) stays
`object`. -/
def inferDtype (cs : List RawCell) : Dtype :=
  let nm := nonMissing cs
  if nm.isEmpty then .objectDt
  else if nm.all RawCell.isInt then .int64
  else if nm.all RawCell.isStr then .stringDt
  else if nm.all RawCell.isBool then .booleanDt
  else if nm.all RawCell.isNum then
    (if nm.all RawCell.isIntLike then .int64 else .float64)
  else .objectDt

/-- Fractional decimal digits of `rem / d`, up to `fuel` digits, stopping
when the remainder vanishes.  Used to render float cells the way Python
`str()` renders them. -/
def fracDigits : Nat → Nat → Nat → String
  | 0, _, _ => ""
  | fuel + 1, rem, d =>
    if rem = 0 then ""
    else
      let r10 := rem * 10
      toString (r10 / d) ++ fracDigits fuel (r10 % d) d

/-- Rendering of a float value as Python `str()` renders it: integral
floats end in `.0`, others print their decimal expansion. -/
def floatRepr (q : Rat) : String :=
  let sign := if q.num < 0 then "-" else ""
  let n := q.num.natAbs
  let frac := fracDigits 17 (n % q.den) q.den
  sign ++ toString (n / q.den) ++ "." ++ (if frac = "" then "0" else frac)

/-- Python `str()` of a raw cell value, as applied by `astype(str)` to the
cells of a leftover `object` column.  The missing marker prints as the
string form of the float missing marker. -/
def pyStr : RawCell → String
  | .int n => toString n
  | .float q => floatRepr q
  | .str s => s
  | .bool b => if b then "True" else "False"
  | .missing => "nan"

/-- Cell conversion performed when a column becomes `Int64`: integral
floats become integers, everything else is untouched. -/
def toIntCell : RawCell → RawCell
  | .float q => .int q.floor
  | c => c

/-- Cell conversion performed when a column becomes `Float64`: integers
become floats, everything else is untouched. -/
def toFloatCell : RawCell → RawCell
  | .int n => .float (n : Rat)
  | c => c

/-- Cell conversion performed by `astype(str)` on a leftover `object`
column: every cell, the missing ones included, becomes a string. -/
def toStrCell (c : RawCell) : RawCell :=
  .str (pyStr c)

/-- Per-dtype cell conversion of a whole column. -/
def convertCells : Dtype → List RawCell → List RawCell
  | .int64, cs => cs.map toIntCell
  | .float64, cs => cs.map toFloatCell
  | .stringDt, cs => cs
  | .booleanDt, cs => cs
  | .objectDt, cs => cs.map toStrCell

/-- The semantic kind of a column after cleaning.  `objectDt` maps to
`text` because `clean_dataframe` string-coerces every leftover object
column. -/
def kindOf : Dtype → Kind
  | .int64 => .integer
  | .float64 => .float
  | .stringDt => .text
  | .booleanDt => .boolean
  | .objectDt => .text

/-- Bool prefix test on character lists. -/
def charPre : List Char → List Char → Bool
  | [], _ => true
  | _ :: _, [] => false
  | a :: as, b :: bs => a == b && charPre as bs

/-- Anchored prefix test on strings: whether `s` starts with `pre`.  This
is what the anchored regex search `str.contains("^Unnamed")` computes for
each column name. -/
def strStartsWith (s pre : String) : Bool :=
  charPre pre.toList s.toList

/-- A sanitized column: its name, its single inferred kind, and its
converted cells. -/
structure CleanColumn where
  name : String
  kind : Kind
  cells : List RawCell
deriving DecidableEq

/-- A sanitized table. -/
abbrev CleanTable := List CleanColumn

/-- Sanitize one column: infer its dtype, convert its cells, and record the
resulting semantic kind. -/
def cleanColumn (c : Column) : CleanColumn :=
  let d := inferDtype c.cells
  ⟨c.name, kindOf d, convertCells d c.cells⟩

/-- `clean_dataframe` from `app.py`: drop every column whose name matches
the anchored regex `^Unnamed` (that is, starts with `Unnamed`), then infer
dtypes and string-coerce leftover object columns, column by column. -/
def clean_dataframe (t : Table) : CleanTable :=
  (t.filter (fun c => !(strStartsWith c.name "Unnamed"))).map cleanColumn

/-- Forget the kind tags: feed a `CleanTable` back as a raw `Table`. -/
def CleanColumn.toColumn (c : CleanColumn) : Column :=
  ⟨c.name, c.cells⟩

/-- Forget the kind tags of a whole table. -/
def toTable (ct : CleanTable) : Table :=
  ct.map CleanColumn.toColumn

/-- True when a CSV field must be quoted under minimal quoting: it holds
the delimiter, a quote, or a line break. -/
def csvNeedsQuote (s : String) : Bool :=
  s.toList.any (fun ch => ch == ',' || ch == '\"' || ch == '\n' || ch == '\r')

/-- Double every quote character, as CSV quoting escapes quotes. -/
def escQuoteChars : List Char → List Char
  | [] => []
  | ch :: t => if ch == '\"' then '\"' :: '\"' :: escQuoteChars t else ch :: escQuoteChars t

/-- A CSV field under minimal quoting, quotes doubled inside quoted
fields, as `to_csv` renders text cells and headers. -/
def csvField (s : String) : String :=
  if csvNeedsQuote s then "\"" ++ String.mk (escQuoteChars s.toList) ++ "\"" else s

/-- How `to_csv` renders one cell: missing cells render empty. -/
def csvCell : RawCell → String
  | .int n => toString n
  | .float q => floatRepr q
  | .str s => csvField s
  | .bool b => if b then "True" else "False"
  | .missing => ""

/-- The row count of a table (columns are uniform in the program; `max`
totalises the ragged case). -/
def rowCount (ct : CleanTable) : Nat :=
  (ct.map (fun c => c.cells.length)).foldr max 0

/-- `df.head(m)`: the first `m` rows of every column. -/
def headRows (ct : CleanTable) (m : Nat) : CleanTable :=
  ct.map (fun c => ⟨c.name, c.kind, c.cells.take m⟩)

/-- The CSV header line of `to_csv(index=False)`. -/
def csvHeader (ct : CleanTable) : String :=
  String.intercalate "," (ct.map (fun c => csvField c.name))

/-- The `i`-th CSV data line. -/
def csvRowAt (ct : CleanTable) (i : Nat) : String :=
  String.intercalate "," (ct.map (fun c => csvCell (c.cells.getD i .missing)))

/-- `df.to_csv(index=False)`: header line plus one line per row, each
line terminated by a newline. -/
def to_csv (ct : CleanTable) : String :=
  csvHeader ct ++ "\n" ++
    String.join ((List.range (rowCount ct)).map (fun i => csvRowAt ct i ++ "\n"))

/-- A single-quote character, used by the Python `repr` of strings. -/
def squote : String :=
  String.singleton (Char.ofNat 39)

/-- Python `repr` of a string, as it appears when a list of column names
is interpolated into an f-string. -/
def pyStrLit (s : String) : String :=
  squote ++ s ++ squote

/-- Python `repr` of a list of strings. -/
def pyListRepr (xs : List String) : String :=
  "[" ++ String.intercalate ", " (xs.map pyStrLit) ++ "]"

/-- Names of the numeric columns, in table order: the
`select_dtypes(include=["int64", "float64", "Int64", "Float64"])` lane of
the snapshot builder. -/
def numericColNames (ct : CleanTable) : List String :=
  (ct.filter (fun c => c.kind == Kind.integer || c.kind == Kind.float)).map (fun c => c.name)

/-- Names of the categorical/text columns, in table order: the
`select_dtypes(include=["string", "object"])` lane of the snapshot
builder. -/
def catColNames (ct : CleanTable) : List String :=
  (ct.filter (fun c => c.kind == Kind.text)).map (fun c => c.name)

/-- All column names, in table order (`df.columns.tolist()`). -/
def colNames (ct : CleanTable) : List String :=
  ct.map (fun c => c.name)

/-- An indentation character for `textwrap.dedent`. -/
def isIndentChar (ch : Char) : Bool :=
  ch == ' ' || ch == '\t'

/-- A non-empty line made of indentation characters only; `dedent`
normalizes such lines to empty lines. -/
def lineIsBlankWS (l : List Char) : Bool :=
  !l.isEmpty && l.all isIndentChar

/-- Longest common prefix of two character lists. -/
def commonPrefixChars : List Char → List Char → List Char
  | a :: as, b :: bs => if a = b then a :: commonPrefixChars as bs else []
  | _, _ => []

/-- Split a character list at every occurrence of a separator, keeping
empty segments, as splitting a string into its lines does. -/
def splitChar (sep : Char) : List Char → List (List Char)
  | [] => [[]]
  | ch :: t =>
    if ch == sep then [] :: splitChar sep t
    else
      match splitChar sep t with
      | [] => [[ch]]
      | h :: r => (ch :: h) :: r

/-- `textwrap.dedent`: normalize whitespace-only lines to empty lines,
compute the common leading indentation of the remaining non-empty lines,
and strip it from every line that carries it. -/
def dedent (s : String) : String :=
  let ls := (splitChar '\n' s.toList).map (fun l => if lineIsBlankWS l then [] else l)
  let indents := (ls.filter (fun l => !l.isEmpty)).map (fun l => l.takeWhile isIndentChar)
  let margin :=
    match indents with
    | [] => ([] : List Char)
    | i :: is => is.foldl commonPrefixChars i
  String.mk (List.intercalate ['\n']
    (ls.map (fun l => if charPre margin l then l.drop margin.length else l)))

/-- `build_dataset_snapshot` from `app.py`: the dedented f-string holding
the shape, the three column-name lists and the first
`min(max_rows, len(df))` rows rendered as CSV. -/
def build_dataset_snapshot (df : CleanTable) (max_rows : Nat := 10) : String :=
  let rows_text := to_csv (headRows df max_rows)
  let nRows := rowCount df
  let raw :=
    "\n    Dataset shape: " ++ toString nRows ++ " rows x " ++ toString df.length ++ " columns" ++
    "\n    Columns: " ++ pyListRepr (colNames df) ++
    "\n    Numeric columns: " ++ pyListRepr (numericColNames df) ++
    "\n    Categorical/text columns: " ++ pyListRepr (catColNames df) ++
    "\n" ++
    "\n    First " ++ toString (min max_rows nRows) ++ " rows (CSV):" ++
    "\n    " ++ rows_text ++
    "\n    "
  dedent raw

/-- The numeric value of a cell, when it has one. -/
def cellRat : RawCell → Option Rat
  | .int n => some (n : Rat)
  | .float q => some q
  | _ => none

/-- The non-missing numeric values of a column: every statistic is
computed over these and over nothing else. -/
def colVals (c : CleanColumn) : List Rat :=
  c.cells.filterMap cellRat

/-- The numeric (`Int64`/`Float64`) columns, in table order: the
`select_dtypes` lane of the stats summarizer. -/
def numericCols (ct : CleanTable) : List CleanColumn :=
  ct.filter (fun c => c.kind == Kind.integer || c.kind == Kind.float)

/-- Mean over the non-missing values; `none` models NaN. -/
def meanR (v : List Rat) : Option Rat :=
  if v.length = 0 then none else some (v.sum / (v.length : Rat))

/-- Median over the non-missing values, averaging the two middle values
for an even count, as `Series.median` does. -/
def medianR (v : List Rat) : Option Rat :=
  let s := List.insertionSort (· ≤ ·) v
  let n := s.length
  if n = 0 then none
  else if n % 2 = 1 then some (s.getD (n / 2) 0)
  else some ((s.getD (n / 2 - 1) 0 + s.getD (n / 2) 0) / 2)

/-- A deterministic rational square-root approximation standing in for the
float square root inside the sample standard deviation; no claim depends
on its digits. -/
def sqrtApprox (q : Rat) : Rat :=
  (Nat.sqrt (q * 1000000000000).floor.toNat : Rat) / 1000000

/-- Sample standard deviation (ddof = 1) over the non-missing values, as
`describe()` reports it: NaN (`none`) when fewer than two values exist. -/
def stdR (v : List Rat) : Option Rat :=
  let n := v.length
  if n ≤ 1 then none
  else
    let m := v.sum / (n : Rat)
    some (sqrtApprox ((v.map (fun x => (x - m) ^ 2)).sum / ((n : Rat) - 1)))

/-- Minimum over the non-missing values. -/
def minR (v : List Rat) : Option Rat :=
  match v with
  | [] => none
  | x :: xs => some (xs.foldl min x)

/-- Maximum over the non-missing values. -/
def maxR (v : List Rat) : Option Rat :=
  match v with
  | [] => none
  | x :: xs => some (xs.foldl max x)

/-- Python `f"{x:.3f}"`: three fixed decimals for a number, the literal
`nan` for a missing statistic. -/
def fmt3 : Option Rat → String
  | none => "nan"
  | some q =>
    let m := round (q * 1000)
    let a := m.natAbs
    (if m < 0 then "-" else "") ++ toString (a / 1000) ++ "." ++
      (if a % 1000 < 10 then "00" else if a % 1000 < 100 then "0" else "") ++ toString (a % 1000)

/-- One per-column line of the stats report, exactly in the format of the
source line `stats.append(...)`. -/
def statsLine (c : CleanColumn) : String :=
  let v := colVals c
  "- " ++ c.name ++ ": mean=" ++ fmt3 (meanR v) ++ ", median=" ++ fmt3 (medianR v) ++
    ", std=" ++ fmt3 (stdR v) ++ ", min=" ++ fmt3 (minR v) ++ ", max=" ++ fmt3 (maxR v) ++
    ", n=" ++ toString v.length

/-- The `stats` list built by `local_basic_stats_text`: one line per
numeric column up to the cap, plus the omission line when more numeric
columns exist than the cap. -/
def local_basic_stats_lines (df : CleanTable) (numeric_limit : Nat) : List String :=
  (((numericCols df).take numeric_limit).map statsLine) ++
    (if numeric_limit < (numericCols df).length then
      ["...and " ++ toString ((numericCols df).length - numeric_limit) ++
        " more numeric columns."]
    else [])

/-- `local_basic_stats_text` from `app.py`: the sentinel when no numeric
column exists, otherwise the newline-join of the stats lines. -/
def local_basic_stats_text (df : CleanTable) (numeric_limit : Nat := 5) : String :=
  if (numericCols df).length = 0 then "No numeric columns detected."
  else String.intercalate "\n" (local_basic_stats_lines df numeric_limit)

/-- The Ask-button prompt f-string of `app.py`, verbatim. -/
def ask_prompt (snapshot_text local_stats user_question : String) : String :=
  "\n        You are a helpful data analyst. Use ONLY the dataset provided below to answer the user" ++
    squote ++ "s question.\n        Do not hallucinate. If the question is ambiguous, explicitly state assumptions and compute using the data.\n\n        DATASET SNAPSHOT:\n        " ++
    snapshot_text ++ "\n\n        LOCAL STATS:\n        " ++ local_stats ++
    "\n\n        USER QUESTION:\n        " ++ user_question ++
    "\n\n        Provide a concise, step-by-step answer explaining any computations you did.\n        "

/-- The Ask-button handler, `if ask_btn and user_question:` — Python
string truthiness makes the empty question falsy.  `some p` means a
prompt was built and sent to the completion client; `none` means the
body never ran: no prompt, no request, no error. -/
def ask_handler (ask_btn : Bool) (user_question snapshot_text local_stats : String) : Option String :=
  if ask_btn && user_question != "" then some (ask_prompt snapshot_text local_stats user_question)
  else none

/-- The end-to-end demo table of the spec. -/
def demoRaw : Table :=
  [⟨"Unnamed: 0", [.int 0, .int 1, .int 2]⟩,
   ⟨"Manufacturer", [.str "Acme", .str "Acme", .str "Globex"]⟩,
   ⟨"Sales", [.int 100, .int 150, .int 200]⟩]

/-- The sanitized demo table. -/
def demoClean : CleanTable :=
  clean_dataframe demoRaw

/-- A sanitized table holding a boolean column next to an integer one. -/
def boolDemo : CleanTable :=
  clean_dataframe [⟨"flag", [.bool true, .bool false]⟩, ⟨"x", [.int 1, .int 2]⟩]

/-- A sanitized table with twelve numeric columns. -/
def statsDemo : CleanTable :=
  (List.range 12).map (fun i => ⟨"c" ++ toString i, Kind.integer, [.int (i : Int)]⟩)

/-- The mixed column of the spec: an integer, a string and a missing value. -/
def mixedDemo : Table :=
  [⟨"m", [.int 1, .str "a", .missing]⟩]

/-- A sanitized table with only text columns. -/
def textOnlyDemo : CleanTable :=
  clean_dataframe [⟨"t", [.str "x", .str "y"]⟩]

/-- A sanitized table whose numeric column has exactly one non-missing
value. -/
def singleValDemo : CleanTable :=
  clean_dataframe [⟨"s", [.int 5, .missing]⟩]

/-- A raw table with a bare `Unnamed` column, an `Unnamed: 0` column and a
regular column. -/
def unnamedDemo : Table :=
  [⟨"Unnamed", [.int 0]⟩, ⟨"Unnamed: 0", [.int 1]⟩, ⟨"a", [.int 7]⟩]

/-- The sanitized form of the mixed demo column. -/
def mixedCleanCol : CleanColumn :=
  ⟨"m", Kind.text, [.str "1", .str "a", .str "nan"]⟩

/-- The sanitized single-non-missing-value numeric column. -/
def singleValCol : CleanColumn :=
  ⟨"s", Kind.integer, [.int 5, .missing]⟩

/-- A cell is consistent with the assigned kind of its column: missing cells
are allowed everywhere, and a present cell must carry exactly the value
kind of the column. -/
def cellMatchesKind : Kind → RawCell → Bool
  | _, .missing => true
  | .integer, .int _ => true
  | .float, .float _ => true
  | .text, .str _ => true
  | .boolean, .bool _ => true
  | _, _ => false

/-- The invariant the cells of a sanitized column satisfy, per kind; strong
enough to make re-sanitization the identity. -/
def Inv : Kind → List RawCell → Prop
  | .integer, cs => nonMissing cs ≠ [] ∧ ∀ c ∈ nonMissing cs, c.isInt = true
  | .float, cs => nonMissing cs ≠ [] ∧ (∀ c ∈ nonMissing cs, c.isFloat = true) ∧
      ∃ c ∈ nonMissing cs, c.isIntLike = false
  | .text, cs => (∀ c ∈ nonMissing cs, c.isStr = true) ∧ (cs = [] ∨ nonMissing cs ≠ [])
  | .boolean, cs => nonMissing cs ≠ [] ∧ ∀ c ∈ nonMissing cs, c.isBool = true

theorem toIntCell_isMissing (c : RawCell) : (toIntCell c).isMissing = c.isMissing := by
  cases c <;> rfl

theorem toFloatCell_isMissing (c : RawCell) : (toFloatCell c).isMissing = c.isMissing := by
  cases c <;> rfl

theorem nonMissing_map_of {f : RawCell → RawCell}
    (hf : ∀ c, (f c).isMissing = c.isMissing) :
    ∀ cs : List RawCell, nonMissing (cs.map f) = (nonMissing cs).map f := by
  intro cs
  induction cs with
  | nil => rfl
  | cons a l ih =>
    simp only [nonMissing, List.map_cons, List.filter_cons, hf a] at *
    cases a.isMissing <;> simp [ih]

theorem map_id_of {α : Type} {f : α → α} {l : List α} (h : ∀ a ∈ l, f a = a) :
    l.map f = l := by
  induction l with
  | nil => rfl
  | cons a t ih =>
    rw [List.map_cons, h a (List.mem_cons_self a t),
      ih (fun x hx => h x (List.mem_cons_of_mem a hx))]

theorem filter_map_comm {α β : Type} (f : α → β) (p : β → Bool) (l : List α) :
    (l.map f).filter p = (l.filter (fun a => p (f a))).map f := by
  induction l with
  | nil => rfl
  | cons a t ih =>
    simp only [List.map_cons, List.filter_cons]
    cases h : p (f a) <;> simp [h, ih]

theorem nonMissing_map_toStr (cs : List RawCell) :
    nonMissing (cs.map toStrCell) = cs.map toStrCell := by
  rw [nonMissing, List.filter_eq_self]
  intro a ha
  obtain ⟨b, _, rfl⟩ := List.mem_map.mp ha
  rfl

theorem mem_nonMissing_of {cs : List RawCell} {x : RawCell} (hx : x ∈ cs)
    (hm : x.isMissing = false) : x ∈ nonMissing cs := by
  rw [nonMissing, List.mem_filter]
  exact ⟨hx, by rw [hm]; rfl⟩

/-- Soundness of sanitization at the column level: the converted cells
satisfy the invariant of the assigned kind. -/
theorem cleanColumn_inv (c : Column) :
    Inv (cleanColumn c).kind (cleanColumn c).cells := by
  show Inv (kindOf (inferDtype c.cells)) (convertCells (inferDtype c.cells) c.cells)
  unfold inferDtype
  by_cases h0 : (nonMissing c.cells).isEmpty = true
  · rw [if_pos h0]
    show Inv Kind.text (c.cells.map toStrCell)
    refine ⟨?_, ?_⟩
    · intro x hx
      rw [nonMissing_map_toStr] at hx
      obtain ⟨b, _, rfl⟩ := List.mem_map.mp hx
      rfl
    · cases hc : c.cells with
      | nil => exact Or.inl rfl
      | cons a l =>
        refine Or.inr ?_
        rw [nonMissing_map_toStr]
        simp
  rw [if_neg h0]
  have hne : nonMissing c.cells ≠ [] := by
    intro h
    rw [h] at h0
    exact h0 rfl
  by_cases h1 : (nonMissing c.cells).all RawCell.isInt = true
  · rw [if_pos h1]
    show Inv Kind.integer (c.cells.map toIntCell)
    rw [Inv, nonMissing_map_of toIntCell_isMissing]
    refine ⟨by simpa using hne, ?_⟩
    intro x hx
    obtain ⟨y, hy, rfl⟩ := List.mem_map.mp hx
    have := List.all_eq_true.mp h1 y hy
    cases y <;> simp_all [RawCell.isInt, toIntCell]
  rw [if_neg h1]
  by_cases h2 : (nonMissing c.cells).all RawCell.isStr = true
  · rw [if_pos h2]
    show Inv Kind.text c.cells
    exact ⟨fun x hx => List.all_eq_true.mp h2 x hx, Or.inr hne⟩
  rw [if_neg h2]
  by_cases h3 : (nonMissing c.cells).all RawCell.isBool = true
  · rw [if_pos h3]
    show Inv Kind.boolean c.cells
    exact ⟨hne, fun x hx => List.all_eq_true.mp h3 x hx⟩
  rw [if_neg h3]
  by_cases h4 : (nonMissing c.cells).all RawCell.isNum = true
  · rw [if_pos h4]
    by_cases h5 : (nonMissing c.cells).all RawCell.isIntLike = true
    · rw [if_pos h5]
      show Inv Kind.integer (c.cells.map toIntCell)
      rw [Inv, nonMissing_map_of toIntCell_isMissing]
      refine ⟨by simpa using hne, ?_⟩
      intro x hx
      obtain ⟨y, hy, rfl⟩ := List.mem_map.mp hx
      have := List.all_eq_true.mp h4 y hy
      cases y <;> simp_all [RawCell.isNum, RawCell.isInt, RawCell.isFloat, toIntCell]
    · rw [if_neg h5]
      show Inv Kind.float (c.cells.map toFloatCell)
      rw [Inv, nonMissing_map_of toFloatCell_isMissing]
      refine ⟨by simpa using hne, ?_, ?_⟩
      · intro x hx
        obtain ⟨y, hy, rfl⟩ := List.mem_map.mp hx
        have := List.all_eq_true.mp h4 y hy
        cases y <;> simp_all [RawCell.isNum, RawCell.isInt, RawCell.isFloat, toFloatCell]
      · rw [List.all_eq_true] at h5
        push_neg at h5
        obtain ⟨y, hy, hylike⟩ := h5
        have hnum := List.all_eq_true.mp h4 y hy
        refine ⟨toFloatCell y, List.mem_map_of_mem toFloatCell hy, ?_⟩
        cases y <;> simp_all [RawCell.isNum, RawCell.isInt, RawCell.isIntLike, toFloatCell]
  · rw [if_neg h4]
    show Inv Kind.text (c.cells.map toStrCell)
    refine ⟨?_, ?_⟩
    · intro x hx
      rw [nonMissing_map_toStr] at hx
      obtain ⟨b, _, rfl⟩ := List.mem_map.mp hx
      rfl
    · refine Or.inr ?_
      rw [nonMissing_map_toStr]
      cases hc : c.cells with
      | nil => rw [hc] at hne; exact absurd rfl hne
      | cons a l => simp

/-- Stability of the invariant: sanitizing a column that already satisfies
the invariant of kind `k` reassigns `k` and leaves every cell unchanged. -/
theorem inv_clean (s : String) (k : Kind) (cs : List RawCell) (h : Inv k cs) :
    cleanColumn ⟨s, cs⟩ = ⟨s, k, cs⟩ := by
  have hkd : ∀ d, inferDtype cs = d → kindOf d = k → convertCells d cs = cs →
      cleanColumn ⟨s, cs⟩ = ⟨s, k, cs⟩ := by
    intro d h1 h2 h3
    show (⟨s, kindOf (inferDtype cs), convertCells (inferDtype cs) cs⟩ : CleanColumn) = _
    rw [h1, h2, h3]
  cases k with
  | integer =>
    obtain ⟨hne, hall⟩ := h
    refine hkd .int64 ?_ rfl ?_
    · unfold inferDtype
      rw [if_neg (by simpa using hne), if_pos (List.all_eq_true.mpr hall)]
    · show cs.map toIntCell = cs
      refine map_id_of ?_
      intro a ha
      by_cases hm : a.isMissing = true
      · have : a = RawCell.missing := by cases a <;> simp_all [RawCell.isMissing]
        subst this
        rfl
      · have := hall a (mem_nonMissing_of ha (by simpa using hm))
        cases a <;> simp_all [RawCell.isInt, toIntCell]
  | float =>
    obtain ⟨hne, hall, y, hy, hylike⟩ := h
    have hyfloat := hall y hy
    refine hkd .float64 ?_ rfl ?_
    · unfold inferDtype
      rw [if_neg (by simpa using hne)]
      rw [if_neg ?hni, if_neg ?hns, if_neg ?hnb,
        if_pos ?hnum, if_neg ?hnl]
      case hni =>
        intro hc
        have := List.all_eq_true.mp hc y hy
        cases y <;> simp_all [RawCell.isInt, RawCell.isFloat]
      case hns =>
        intro hc
        have := List.all_eq_true.mp hc y hy
        cases y <;> simp_all [RawCell.isStr, RawCell.isFloat]
      case hnb =>
        intro hc
        have := List.all_eq_true.mp hc y hy
        cases y <;> simp_all [RawCell.isBool, RawCell.isFloat]
      case hnum =>
        refine List.all_eq_true.mpr ?_
        intro x hx
        have := hall x hx
        cases x <;> simp_all [RawCell.isNum, RawCell.isFloat]
      case hnl =>
        intro hc
        have := List.all_eq_true.mp hc y hy
        rw [hylike] at this
        exact Bool.false_ne_true this
    · show cs.map toFloatCell = cs
      refine map_id_of ?_
      intro a ha
      by_cases hm : a.isMissing = true
      · have : a = RawCell.missing := by cases a <;> simp_all [RawCell.isMissing]
        subst this
        rfl
      · have := hall a (mem_nonMissing_of ha (by simpa using hm))
        cases a <;> simp_all [RawCell.isFloat, toFloatCell]
  | text =>
    obtain ⟨hall, hcase⟩ := h
    rcases hcase with hnil | hne
    · subst hnil
      rfl
    · refine hkd .stringDt ?_ rfl rfl
      unfold inferDtype
      obtain ⟨y, hy⟩ := List.exists_mem_of_ne_nil _ hne
      have hystr := hall y hy
      rw [if_neg (by simpa using hne)]
      rw [if_neg ?hni2, if_pos (List.all_eq_true.mpr hall)]
      case hni2 =>
        intro hc
        have := List.all_eq_true.mp hc y hy
        cases y <;> simp_all [RawCell.isInt, RawCell.isStr]
  | boolean =>
    obtain ⟨hne, hall⟩ := h
    obtain ⟨y, hy⟩ := List.exists_mem_of_ne_nil _ hne
    have hybool := hall y hy
    refine hkd .booleanDt ?_ rfl rfl
    unfold inferDtype
    rw [if_neg (by simpa using hne)]
    rw [if_neg ?hni3, if_neg ?hns3, if_pos (List.all_eq_true.mpr hall)]
    case hni3 =>
      intro hc
      have := List.all_eq_true.mp hc y hy
      cases y <;> simp_all [RawCell.isInt, RawCell.isBool]
    case hns3 =>
      intro hc
      have := List.all_eq_true.mp hc y hy
      cases y <;> simp_all [RawCell.isStr, RawCell.isBool]

/-- Sanitizing a column twice equals sanitizing it once. -/
theorem cleanColumn_idem (c : Column) :
    cleanColumn ((cleanColumn c).toColumn) = cleanColumn c := by
  have h := cleanColumn_inv c
  show cleanColumn ⟨(cleanColumn c).name, (cleanColumn c).cells⟩ = cleanColumn c
  rw [inv_clean _ _ _ h]

/-- Every cell of a column satisfying the invariant matches the kind of
the column. -/
theorem inv_cellMatches {k : Kind} {cs : List RawCell} (h : Inv k cs) {x : RawCell}
    (hx : x ∈ cs) : cellMatchesKind k x = true := by
  by_cases hm : x.isMissing = true
  · have hxm : x = RawCell.missing := by cases x <;> simp_all [RawCell.isMissing]
    subst hxm
    cases k <;> rfl
  have hxm : x ∈ nonMissing cs := mem_nonMissing_of hx (by simpa using hm)
  cases k with
  | integer =>
    have := h.2 x hxm
    cases x <;> simp_all [RawCell.isInt, cellMatchesKind]
  | float =>
    have := h.2.1 x hxm
    cases x <;> simp_all [RawCell.isFloat, cellMatchesKind]
  | text =>
    have := h.1 x hxm
    cases x <;> simp_all [RawCell.isStr, cellMatchesKind]
  | boolean =>
    have := h.2 x hxm
    cases x <;> simp_all [RawCell.isBool, cellMatchesKind]

theorem convertCells_length (d : Dtype) (cs : List RawCell) :
    (convertCells d cs).length = cs.length := by
  cases d <;> simp [convertCells]

/-- C1, counterexample: on a table holding a single all-boolean column, the
sanitizer keeps boolean cells, so not every output cell is an integer, a
float, a string, or missing — the claim as stated is false. -/
theorem C1_counterexample :
    ¬ (∀ col ∈ clean_dataframe [⟨"flag", [RawCell.bool true]⟩], ∀ x ∈ col.cells,
        x = RawCell.missing ∨ x.isInt = true ∨ x.isFloat = true ∨ x.isStr = true) := by
  decide

/-- C1, amended: every cell of the sanitized output matches the kind
assigned to its column — integer cells in Integer columns, float cells in
Float columns, string cells in Text columns, boolean cells in Boolean
columns, with missing cells allowed; so every surviving non-missing cell
is one of integer, float, string or boolean, and no mixed or opaque
column survives. -/
theorem C1_cells_match_kind (t : Table) (col : CleanColumn) (x : RawCell)
    (hcol : col ∈ clean_dataframe t) (hx : x ∈ col.cells) :
    cellMatchesKind col.kind x = true := by
  unfold clean_dataframe at hcol
  obtain ⟨c, hc, rfl⟩ := List.mem_map.mp hcol
  exact inv_cellMatches (cleanColumn_inv c) hx

/-- C1, witness: the mixed column `[1, "a", None]` of the spec is coerced to a
Text column whose cells are all strings. -/
theorem C1_cells_match_kind_witness :
    mixedCleanCol ∈ clean_dataframe mixedDemo ∧ RawCell.str "1" ∈ mixedCleanCol.cells ∧
      cellMatchesKind mixedCleanCol.kind (RawCell.str "1") = true :=
  ⟨by decide, by decide,
    C1_cells_match_kind mixedDemo mixedCleanCol (RawCell.str "1") (by decide) (by decide)⟩

/-- C2, counterexample: the filter `df.columns.str.contains("^Unnamed")`
drops every column whose name starts with `Unnamed`, so a column named
plainly `Unnamed` (no colon, no digits) is dropped too, contrary to the
claim; `Unnamed: 0` is dropped and a regular column is kept, as the claim
also says. -/
theorem C2_counterexample :
    "Unnamed" ∈ unnamedDemo.map Column.name ∧
    "Unnamed" ∉ colNames (clean_dataframe unnamedDemo) ∧
    "Unnamed: 0" ∉ colNames (clean_dataframe unnamedDemo) ∧
    "a" ∈ colNames (clean_dataframe unnamedDemo) := by
  decide

/-- C2, amended: the sanitizer drops exactly the columns whose name starts
with `Unnamed` — all others survive, in order and with their names
unchanged. -/
theorem C2_unnamed_filter (t : Table) :
    colNames (clean_dataframe t) =
      (t.filter (fun c => !(strStartsWith c.name "Unnamed"))).map Column.name := by
  unfold colNames clean_dataframe
  rw [List.map_map]
  rfl

/-- C3: sanitization is idempotent — feeding the sanitized table back as a
raw table and sanitizing again yields the same sanitized table. -/
theorem C3_sanitize_idempotent (t : Table) :
    clean_dataframe (toTable (clean_dataframe t)) = clean_dataframe t := by
  induction t with
  | nil => rfl
  | cons c t ih =>
    by_cases hp : strStartsWith c.name "Unnamed" = true
    · have h1 : clean_dataframe (c :: t) = clean_dataframe t := by
        simp [clean_dataframe, List.filter_cons, hp]
      rw [h1, ih]
    · have h1 : clean_dataframe (c :: t) = cleanColumn c :: clean_dataframe t := by
        simp [clean_dataframe, List.filter_cons, hp]
      rw [h1]
      have h3 : strStartsWith (cleanColumn c).toColumn.name "Unnamed" = false := by
        show strStartsWith c.name "Unnamed" = false
        simpa using hp
      have h4 : clean_dataframe ((cleanColumn c).toColumn :: toTable (clean_dataframe t)) =
          cleanColumn ((cleanColumn c).toColumn) ::
            clean_dataframe (toTable (clean_dataframe t)) := by
        simp [clean_dataframe, List.filter_cons, h3]
      show clean_dataframe ((cleanColumn c).toColumn :: toTable (clean_dataframe t)) = _
      rw [h4, cleanColumn_idem, ih]

/-- C4: when more numeric columns exist than the cap, the stats list holds
exactly `numeric_limit` per-column lines followed by one omission line
naming the number of columns left out, and the report is their
newline-join. -/
theorem C4_stats_bound (df : CleanTable) (numeric_limit : Nat)
    (h : numeric_limit < (numericCols df).length) :
    (local_basic_stats_lines df numeric_limit).length = numeric_limit + 1 ∧
    (local_basic_stats_lines df numeric_limit).take numeric_limit =
      ((numericCols df).take numeric_limit).map statsLine ∧
    (local_basic_stats_lines df numeric_limit).getLast? =
      some ("...and " ++ toString ((numericCols df).length - numeric_limit) ++
        " more numeric columns.") ∧
    local_basic_stats_text df numeric_limit =
      String.intercalate "\n" (local_basic_stats_lines df numeric_limit) := by
  have hlen : (((numericCols df).take numeric_limit).map statsLine).length = numeric_limit := by
    rw [List.length_map, List.length_take]
    exact Nat.min_eq_left (Nat.le_of_lt h)
  have hlines : local_basic_stats_lines df numeric_limit =
      ((numericCols df).take numeric_limit).map statsLine ++
        ["...and " ++ toString ((numericCols df).length - numeric_limit) ++
          " more numeric columns."] := by
    unfold local_basic_stats_lines
    rw [if_pos h]
  refine ⟨?_, ?_, ?_, ?_⟩
  · rw [hlines, List.length_append, hlen]
    rfl
  · rw [hlines]
    exact List.take_left' hlen
  · rw [hlines]
    exact List.getLast?_concat _
  · unfold local_basic_stats_text
    rw [if_neg (by omega)]

/-- C4, witness: twelve numeric columns with a cap of five yield five
per-column lines plus the line `...and 7 more numeric columns.`. -/
theorem C4_stats_bound_witness :
    5 < (numericCols statsDemo).length ∧
    ((local_basic_stats_lines statsDemo 5).length = 5 + 1 ∧
      (local_basic_stats_lines statsDemo 5).take 5 =
        ((numericCols statsDemo).take 5).map statsLine ∧
      (local_basic_stats_lines statsDemo 5).getLast? =
        some ("...and " ++ toString ((numericCols statsDemo).length - 5) ++
          " more numeric columns.") ∧
      local_basic_stats_text statsDemo 5 =
        String.intercalate "\n" (local_basic_stats_lines statsDemo 5)) :=
  ⟨by decide, C4_stats_bound statsDemo 5 (by decide)⟩

/-- C5: a sanitized table with no numeric-kind column makes the stats
summarizer return the literal sentinel, with no error. -/
theorem C5_no_numeric_sentinel (df : CleanTable) (numeric_limit : Nat)
    (h : numericCols df = []) :
    local_basic_stats_text df numeric_limit = "No numeric columns detected." := by
  unfold local_basic_stats_text
  rw [h]
  rfl

/-- C5, witness: a text-only sanitized table yields the sentinel. -/
theorem C5_no_numeric_sentinel_witness :
    numericCols textOnlyDemo = [] ∧
    local_basic_stats_text textOnlyDemo 5 = "No numeric columns detected." :=
  ⟨by decide, C5_no_numeric_sentinel textOnlyDemo 5 (by decide)⟩

/-- C6: the Ask action with an empty question is a no-op — the handler
guard `if ask_btn and user_question:` makes the empty string falsy, so no
prompt is constructed and no completion request is issued, whether or not
the button was pressed. -/
theorem C6_blank_question_noop (ask_btn : Bool) (snapshot_text local_stats : String) :
    ask_handler ask_btn "" snapshot_text local_stats = none := by
  cases ask_btn <;> rfl

/-- C7: the snapshot builder is a pure function of the sanitized table and
the row cap — two builds from the same inputs are byte-identical. -/
theorem C7_snapshot_deterministic (df : CleanTable) (max_rows : Nat) (s₁ s₂ : String)
    (h₁ : s₁ = build_dataset_snapshot df max_rows)
    (h₂ : s₂ = build_dataset_snapshot df max_rows) :
    s₁ = s₂ :=
  h₁.trans h₂.symm

/-- C7, witness: two builds of the demo snapshot agree. -/
theorem C7_snapshot_deterministic_witness :
    build_dataset_snapshot demoClean 10 = build_dataset_snapshot demoClean 10 :=
  C7_snapshot_deterministic demoClean 10 (build_dataset_snapshot demoClean 10)
    (build_dataset_snapshot demoClean 10) rfl rfl

/-- C8: a numeric column with exactly one non-missing value does not make
the summarizer fail: its line appears in the report with the standard
deviation rendered as the literal non-numeric marker `nan`. -/
theorem C8_single_value_std_nan (df : CleanTable) (numeric_limit : Nat) (c : CleanColumn)
    (hc : c ∈ (numericCols df).take numeric_limit)
    (hv : (colVals c).length = 1) :
    statsLine c ∈ local_basic_stats_lines df numeric_limit ∧
    statsLine c =
      "- " ++ c.name ++ ": mean=" ++ fmt3 (meanR (colVals c)) ++ ", median=" ++
        fmt3 (medianR (colVals c)) ++ ", std=" ++ "nan" ++ ", min=" ++
        fmt3 (minR (colVals c)) ++ ", max=" ++ fmt3 (maxR (colVals c)) ++ ", n=" ++ "1" := by
  have hstd : stdR (colVals c) = none := by
    unfold stdR
    rw [hv]
    rfl
  constructor
  · unfold local_basic_stats_lines
    exact List.mem_append_left _ (List.mem_map_of_mem statsLine hc)
  · simp only [statsLine]
    rw [hstd, hv]
    rfl

/-- C8, witness: the sanitized column `[5, missing]` of `singleValDemo`. -/
theorem C8_single_value_std_nan_witness :
    singleValCol ∈ (numericCols singleValDemo).take 5 ∧
    (colVals singleValCol).length = 1 ∧
    (statsLine singleValCol ∈ local_basic_stats_lines singleValDemo 5 ∧
      statsLine singleValCol =
        "- " ++ singleValCol.name ++ ": mean=" ++ fmt3 (meanR (colVals singleValCol)) ++
          ", median=" ++ fmt3 (medianR (colVals singleValCol)) ++ ", std=" ++ "nan" ++
          ", min=" ++ fmt3 (minR (colVals singleValCol)) ++ ", max=" ++
          fmt3 (maxR (colVals singleValCol)) ++ ", n=" ++ "1") :=
  ⟨by decide, by decide, C8_single_value_std_nan singleValDemo 5 singleValCol
    (by decide) (by decide)⟩

/-- C9: sanitization never adds columns, keeps the row count of every
surviving column, and preserves the absence of column-name collisions. -/
theorem C9_shape_preservation (t : Table) (n : Nat)
    (hrows : ∀ c ∈ t, c.cells.length = n)
    (hnames : (t.map Column.name).Nodup) :
    (clean_dataframe t).length ≤ t.length ∧
    (∀ col ∈ clean_dataframe t, col.cells.length = n) ∧
    ((clean_dataframe t).map CleanColumn.name).Nodup := by
  refine ⟨?_, ?_, ?_⟩
  · unfold clean_dataframe
    rw [List.length_map]
    exact List.length_filter_le _ _
  · intro col hcol
    unfold clean_dataframe at hcol
    obtain ⟨c, hc, rfl⟩ := List.mem_map.mp hcol
    have hct : c ∈ t := List.mem_of_mem_filter hc
    show (convertCells (inferDtype c.cells) c.cells).length = n
    rw [convertCells_length]
    exact hrows c hct
  · have hmap : (clean_dataframe t).map CleanColumn.name =
        (t.filter (fun c => !(strStartsWith c.name "Unnamed"))).map Column.name := by
      unfold clean_dataframe
      rw [List.map_map]
      rfl
    rw [hmap]
    exact List.Nodup.sublist (List.Sublist.map Column.name (List.filter_sublist t)) hnames

/-- C9, witness: the end-to-end table of the spec, three rows, unique names. -/
theorem C9_shape_preservation_witness :
    (∀ c ∈ demoRaw, c.cells.length = 3) ∧ (demoRaw.map Column.name).Nodup ∧
    ((clean_dataframe demoRaw).length ≤ demoRaw.length ∧
      (∀ col ∈ clean_dataframe demoRaw, col.cells.length = 3) ∧
      ((clean_dataframe demoRaw).map CleanColumn.name).Nodup) :=
  ⟨by decide, by decide, C9_shape_preservation demoRaw 3 (by decide) (by decide)⟩

set_option maxRecDepth 100000 in
/-- C10: a sanitized all-boolean column is listed in neither the numeric
nor the categorical/text column list of the snapshot, though its name is
in the full column list and its cells appear in the sample rows. -/
theorem C10_boolean_column_unlisted :
    "flag" ∈ colNames boolDemo ∧
    "flag" ∉ numericColNames boolDemo ∧
    "flag" ∉ catColNames boolDemo ∧
    to_csv (headRows boolDemo 10) = "flag,x\nTrue,1\nFalse,2\n" ∧
    build_dataset_snapshot boolDemo 10 =
      dedent ("\n    Dataset shape: 2 rows x 2 columns\n    Columns: " ++
        pyListRepr ["flag", "x"] ++ "\n    Numeric columns: " ++ pyListRepr ["x"] ++
        "\n    Categorical/text columns: " ++ pyListRepr ([] : List String) ++
        "\n\n    First 2 rows (CSV):\n    flag,x\nTrue,1\nFalse,2\n\n    ") := by
  decide

end App
